import Mathlib

/-!
Verification of the `MatchingEnums` SDL validation rule
(`src/federation-js/src/composition/validate/sdl/matchingEnums.ts`).

The rule receives the parsed list of type definitions of one composition
run, groups them by type name, and for each group either checks that all
enum definitions carry identical value sets (emitting an `ENUM_MISMATCH`
fault otherwise) or, when enum and non-enum definitions of the same name
coexist, emits an `ENUM_MISMATCH_TYPE` fault.

The embedding below models the TypeScript source directly: JavaScript
objects used as insertion-ordered string maps become association lists,
`Array.prototype.sort()` (default lexicographic string comparison) becomes a
sort over an explicit code-point comparison, and JavaScript truthiness and
stringification quirks are modelled explicitly where the source relies on
them.
-/

namespace Federation

/-- One enum value of an enum type definition (graphql-js
`EnumValueDefinitionNode`, keeping only the `name.value` the rule reads). -/
structure EnumValueDefinitionNode where
  name : String
deriving DecidableEq, Repr

/-- Kind discriminator of a type definition: the rule only distinguishes
`Kind.ENUM_TYPE_DEFINITION` from every other kind. -/
inductive TypeDefKind where
  | enumTypeDefinition
  | otherTypeDefinition
deriving DecidableEq, Repr

/-- A parsed type definition as one subgraph contributed it (graphql-js
`TypeDefinitionNode` with the federation-added `serviceName`, keeping the
fields the rule reads). `serviceName` is `none` for a fragment lacking a
service identifier; `values` is `none` when the node carries no
`values` array (it is only meaningful on enum definitions). -/
structure TypeDefinitionNode where
  kind : TypeDefKind
  name : String
  serviceName : Option String
  values : Option (List EnumValueDefinitionNode)
deriving DecidableEq, Repr

/-- `isEnumDefinition` from the source: `node.kind === Kind.ENUM_TYPE_DEFINITION`. -/
def isEnumDefinition (node : TypeDefinitionNode) : Bool :=
  node.kind == TypeDefKind.enumTypeDefinition

/-- JavaScript truthiness of the optional `serviceName` string:
`undefined` and the empty string are falsy. -/
def truthyServiceName : Option String → Bool
  | some s => !(s == "")
  | none => false

/-- The `ImpactedServicesCompositionError` payload, modelled as the list of
service identifiers it maps (the source only ever builds the empty record `{}`). -/
abbrev ImpactedServices := List String

/-- An emitted error record (the `GraphQLError` built by `errorWithCode`,
keeping the code, the `impactedServices` extension and the message). -/
structure ValidationFault where
  code : String
  impactedServices : ImpactedServices
  message : String
deriving DecidableEq, Repr

/-- Modelled from the spec: `errorWithCode` lives in `../../utils`, which is
not part of the provided sources; per the spec it packages a code, the
impacted-services payload and a human-readable message into one structured
fault record. -/
def errorWithCode (code : String) (impactedServices : ImpactedServices)
    (message : String) : ValidationFault :=
  { code := code, impactedServices := impactedServices, message := message }

/-- Modelled from the spec: `logServiceAndType` lives in `../../utils`, which
is not part of the provided sources; it prefixes a message with the given
service name and type name. The source passes `servicesWithEnum[0]`, which in
JavaScript is `undefined` when the list is empty; the string `undefined` is
what a template literal renders for it. -/
def logServiceAndType (serviceName : Option String) (typeName : String) : String :=
  "[" ++ (match serviceName with | some s => s | none => "undefined") ++ "] "
    ++ typeName ++ " -> "

/-- The `if (map[key]) push else create` idiom both loops of the source use
on a JS object serving as an insertion-ordered map from strings to arrays.
The object is modelled as an insertion-ordered association list (the keys in
play — GraphQL type names, and comma-joined value names — are never
array-index-like strings, so JS object key order is insertion order). -/
def pushOrCreate {A : Type} (acc : List (String × List A)) (k : String)
    (x : A) : List (String × List A) :=
  if acc.any (fun p => p.1 == k) then
    acc.map (fun p => if p.1 == k then (p.1, p.2 ++ [x]) else p)
  else acc ++ [(k, [x])]

/-- An entry of `simpleEnumDefs`: a service, its enum value names, and the
raw value nodes. -/
structure SimpleEnumDef where
  serviceName : String
  values : List String
  nodes : List EnumValueDefinitionNode
deriving DecidableEq, Repr

/-- An entry of a `matchingEnumGroups` group: the `serviceWithNodes` object
`{serviceName, nodes}` the source pushes. -/
structure ServiceWithNodes where
  serviceName : String
  nodes : List EnumValueDefinitionNode
deriving DecidableEq, Repr

/-- How JavaScript stringifies the plain object `{serviceName, nodes}` when
`Array.prototype.join` renders it into the fault message: the default
`Object.prototype.toString` yields the constant string. -/
def ServiceWithNodes.jsToString (_ : ServiceWithNodes) : String :=
  "[object Object]"

/-- Build `simpleEnumDefs`: keep only definitions whose `serviceName` and
`values` are both truthy (`if (serviceName && values)`), recording the
service, the value names and the raw nodes. -/
def simpleEnumDefsOf (definitions : List TypeDefinitionNode) : List SimpleEnumDef :=
  definitions.filterMap fun d =>
    match d.serviceName, d.values with
    | some s, some vs =>
      if s == "" then none
      else some { serviceName := s, values := vs.map (fun v => v.name), nodes := vs }
    | _, _ => none

/-- Lexicographic strict comparison of character lists, as JS `<` compares
strings (code-unit order; identical to code-point order on the GraphQL name
alphabet, which is ASCII). -/
def charListLt : List Char → List Char → Bool
  | [], [] => false
  | [], _ :: _ => true
  | _ :: _, [] => false
  | c :: cs, d :: ds =>
    if c < d then true else if d < c then false else charListLt cs ds

/-- The default comparator of `Array.prototype.sort()` on strings: `a` sorts
no later than `b` iff `b` is not strictly below `a`. -/
def strLe (a b : String) : Bool := !(charListLt b.data a.data)

/-- `strLe` as a decidable relation, for sorting. -/
def strLeP (a b : String) : Prop := strLe a b = true

instance : DecidableRel strLeP := fun a b => instDecidableEqBool (strLe a b) true

/-- `Array.prototype.sort()` with no comparator: ascending lexicographic
string order. Equal strings are identical, so the sorted list is the unique
sorted permutation of the input; insertion sort computes exactly it. -/
def jsSort (l : List String) : List String :=
  l.insertionSort strLeP

/-- `simpleEnumDefs` after the in-place `definition.values.sort()` pass. -/
def sortedEnumDefsOf (definitions : List TypeDefinitionNode) : List SimpleEnumDef :=
  (simpleEnumDefsOf definitions).map fun d => { d with values := jsSort d.values }

/-- The normalized signature of an enum fragment's value list: value names
sorted and comma-joined (`definition.values.sort()` then `.join()`). -/
def enumSignature (vs : List EnumValueDefinitionNode) : String :=
  String.intercalate "," (jsSort (vs.map (fun v => v.name)))

/-- The grouping key of one `simpleEnumDefs` entry: `definition.values.join()`
(JS `join` with no argument separates with a comma). -/
def enumGroupKey (d : SimpleEnumDef) : String :=
  String.intercalate "," d.values

/-- The `serviceWithNodes` object pushed for one `simpleEnumDefs` entry. -/
def serviceWithNodesOf (d : SimpleEnumDef) : ServiceWithNodes :=
  { serviceName := d.serviceName, nodes := d.nodes }

/-- The loop building `matchingEnumGroups` from `simpleEnumDefs`. -/
def enumGroupFold (acc : List (String × List ServiceWithNodes))
    (l : List SimpleEnumDef) : List (String × List ServiceWithNodes) :=
  l.foldl (fun groups d => pushOrCreate groups (enumGroupKey d) (serviceWithNodesOf d)) acc

/-- `matchingEnumGroups`: groups of services with matching values, keyed by
the comma-joined sorted enum values, in first-observed key order. -/
def matchingEnumGroupsOf (definitions : List TypeDefinitionNode) :
    List (String × List ServiceWithNodes) :=
  enumGroupFold [] (sortedEnumDefsOf definitions)

/-- The `ENUM_MISMATCH` message: the template literal over the group name and
`Object.values(matchingEnumGroups)`, each group rendered as
`[${serviceNames.join(', ')}]` (which stringifies the `{serviceName, nodes}`
objects with the default object stringification). -/
def enumMismatchMessage (name : String)
    (groups : List (String × List ServiceWithNodes)) : String :=
  "The `" ++ name ++ "` enum does not have identical values in all services. "
    ++ "Groups of services with identical values are: "
    ++ String.intercalate ", "
        (groups.map fun g =>
          "[" ++ String.intercalate ", " (g.2.map ServiceWithNodes.jsToString) ++ "]")

/-- `servicesWithEnum`: services whose definition of this name is an enum —
`.filter(isEnumDefinition).map(d => d.serviceName).filter(isString)`
(absent service names are dropped; present ones, even empty, are strings). -/
def servicesWithEnum (definitions : List TypeDefinitionNode) : List String :=
  (definitions.filter isEnumDefinition).filterMap (fun d => d.serviceName)

/-- `servicesWithoutEnum`: services whose definition of this name is not an
enum, with absent service names dropped by `.filter(isString)`. -/
def servicesWithoutEnum (definitions : List TypeDefinitionNode) : List String :=
  (definitions.filter (fun d => !(isEnumDefinition d))).filterMap (fun d => d.serviceName)

/-- The `ENUM_MISMATCH_TYPE` message:
`logServiceAndType(servicesWithEnum[0], name)` (a JS index into a possibly
empty array, yielding `undefined` there) concatenated with the template
listing both service lists. -/
def enumMismatchTypeMessage (name : String) (withE withoutE : List String) : String :=
  logServiceAndType withE.head? name
    ++ name ++ " is an enum in [" ++ String.intercalate ", " withE
    ++ "], but not in [" ++ String.intercalate ", " withoutE ++ "]"

/-- The body of the `for (const [name, definitions] of Object.entries(...))`
loop: the faults reported for one definition group. The `impactedServices`
record is built as `{}` in both branches (the line populating it for
`ENUM_MISMATCH` is commented out in the source). -/
def checkGroup (name : String) (definitions : List TypeDefinitionNode) :
    List ValidationFault :=
  if definitions.all isEnumDefinition then
    let groups := matchingEnumGroupsOf definitions
    if 1 < groups.length then
      [errorWithCode "ENUM_MISMATCH" [] (enumMismatchMessage name groups)]
    else []
  else if definitions.any isEnumDefinition then
    [errorWithCode "ENUM_MISMATCH_TYPE" []
      (enumMismatchTypeMessage name (servicesWithEnum definitions)
        (servicesWithoutEnum definitions))]
  else []

theorem charListLt_trans : ∀ {x y z : List Char},
    charListLt x y = true → charListLt y z = true → charListLt x z = true
  | [], [], _, h1, _ => by simp [charListLt] at h1
  | [], _ :: _, [], _, h2 => by simp [charListLt] at h2
  | [], _ :: _, _ :: _, _, _ => by simp [charListLt]
  | _ :: _, [], _, h1, _ => by simp [charListLt] at h1
  | _ :: _, _ :: _, [], _, h2 => by simp [charListLt] at h2
  | c :: cs, d :: ds, e :: es, h1, h2 => by
    simp only [charListLt] at h1 h2 ⊢
    by_cases hcd : c < d
    · by_cases hde : d < e
      · simp [lt_trans hcd hde]
      · by_cases hed : e < d
        · simp [hde, hed] at h2
        · have hde' : d = e := le_antisymm (le_of_not_lt hed) (le_of_not_lt hde)
          simp [hde' ▸ hcd]
    · by_cases hdc : d < c
      · simp [hcd, hdc] at h1
      · have hcd' : c = d := le_antisymm (le_of_not_lt hdc) (le_of_not_lt hcd)
        subst hcd'
        simp only [lt_irrefl, if_false] at h1
        by_cases hde : c < e
        · simp [hde]
        · by_cases hed : e < c
          · simp [hde, hed] at h2
          · simp only [hde, hed, if_false] at h2 ⊢
            exact charListLt_trans h1 h2

theorem charListLt_asymm : ∀ {x y : List Char},
    charListLt x y = true → charListLt y x = false
  | [], [], h => by simp [charListLt] at h
  | [], _ :: _, _ => by simp [charListLt]
  | _ :: _, [], h => by simp [charListLt] at h
  | c :: cs, d :: ds, h => by
    simp only [charListLt] at h ⊢
    by_cases hcd : c < d
    · simp [lt_asymm hcd, hcd]
    · by_cases hdc : d < c
      · simp [hcd, hdc] at h
      · simp only [hcd, hdc, if_false] at h ⊢
        exact charListLt_asymm h

theorem charListLt_eq_of_not_lt : ∀ {x y : List Char},
    charListLt x y = false → charListLt y x = false → x = y
  | [], [], _, _ => rfl
  | [], _ :: _, h1, _ => by simp [charListLt] at h1
  | _ :: _, [], _, h2 => by simp [charListLt] at h2
  | c :: cs, d :: ds, h1, h2 => by
    simp only [charListLt] at h1 h2
    by_cases hcd : c < d
    · simp [hcd] at h1
    · by_cases hdc : d < c
      · simp [hcd, hdc] at h2
      · have hcd' : c = d := le_antisymm (le_of_not_lt hdc) (le_of_not_lt hcd)
        simp only [hcd, hdc, if_false] at h1 h2
        exact hcd' ▸ congrArg (c :: ·) (charListLt_eq_of_not_lt h1 h2)

instance : IsTrans String strLeP where
  trans a b c h1 h2 := by
    simp only [strLeP, strLe, Bool.not_eq_true', Bool.not_eq_false'] at h1 h2 ⊢
    cases hab : charListLt a.data b.data with
    | true =>
      cases hca : charListLt c.data a.data with
      | true => exact absurd (charListLt_trans hca hab) (by simp [h2])
      | false => rfl
    | false =>
      have hd : a.data = b.data := charListLt_eq_of_not_lt hab h1
      rw [hd]
      exact h2

instance : IsAntisymm String strLeP where
  antisymm a b h1 h2 := by
    simp only [strLeP, strLe, Bool.not_eq_true', Bool.not_eq_false'] at h1 h2
    exact String.ext (charListLt_eq_of_not_lt h2 h1)

instance : IsTotal String strLeP where
  total a b := by
    simp only [strLeP, strLe, Bool.not_eq_true', Bool.not_eq_false']
    cases hba : charListLt b.data a.data with
    | true => exact Or.inr (charListLt_asymm hba)
    | false => exact Or.inl rfl

/-- `jsSort` computes a permutation of its input. -/
theorem jsSort_perm (l : List String) : (jsSort l).Perm l :=
  List.perm_insertionSort strLeP l

/-- Two lists with the same elements (as multisets) sort to the same list:
the sorted permutation of a string multiset is unique. -/
theorem jsSort_eq_of_perm {l1 l2 : List String} (h : l1.Perm l2) :
    jsSort l1 = jsSort l2 :=
  List.eq_of_perm_of_sorted
    ((List.perm_insertionSort strLeP l1).trans
      (h.trans (List.perm_insertionSort strLeP l2).symm))
    (List.sorted_insertionSort strLeP l1) (List.sorted_insertionSort strLeP l2)

/-- The normalized signature depends only on the multiset of value names. -/
theorem enumSignature_eq_of_perm {l1 l2 : List EnumValueDefinitionNode}
    (h : l1.Perm l2) : enumSignature l1 = enumSignature l2 := by
  unfold enumSignature
  exact congrArg (String.intercalate ",")
    (jsSort_eq_of_perm (h.map EnumValueDefinitionNode.name))

/-! ### Properties of the signature-group construction -/

theorem mem_values_pushOrCreate {A : Type} (groups : List (String × List A))
    (k : String) (sw x : A) :
    (∃ g ∈ pushOrCreate groups k sw, x ∈ g.2) ↔
      (∃ g ∈ groups, x ∈ g.2) ∨ x = sw := by
  by_cases hany : (groups.any fun g => g.1 == k) = true
  · rw [pushOrCreate, if_pos hany]
    obtain ⟨g0, hg0, hg0k⟩ := List.any_eq_true.mp hany
    constructor
    · rintro ⟨g', hg', hx⟩
      obtain ⟨g, hg, rfl⟩ := List.mem_map.mp hg'
      by_cases hgk : (g.1 == k) = true
      · rw [if_pos hgk] at hx
        rcases List.mem_append.mp hx with hx | hx
        · exact Or.inl ⟨g, hg, hx⟩
        · exact Or.inr (by simpa using hx)
      · rw [if_neg hgk] at hx
        exact Or.inl ⟨g, hg, hx⟩
    · rintro (⟨g, hg, hx⟩ | hxsw)
      · refine ⟨if (g.1 == k) = true then (g.1, g.2 ++ [sw]) else g,
          List.mem_map.mpr ⟨g, hg, rfl⟩, ?_⟩
        by_cases hgk : (g.1 == k) = true <;> simp [hgk, hx]
      · refine ⟨(g0.1, g0.2 ++ [sw]), List.mem_map.mpr ⟨g0, hg0, by rw [if_pos hg0k]⟩, ?_⟩
        simp [hxsw]
  · rw [pushOrCreate, if_neg hany]
    constructor
    · rintro ⟨g, hg, hx⟩
      rcases List.mem_append.mp hg with hg | hg
      · exact Or.inl ⟨g, hg, hx⟩
      · have hgeq : g = (k, [sw]) := by simpa using hg
        rw [hgeq] at hx
        exact Or.inr (by simpa using hx)
    · rintro (⟨g, hg, hx⟩ | hxsw)
      · exact ⟨g, List.mem_append.mpr (Or.inl hg), hx⟩
      · exact ⟨(k, [sw]), List.mem_append.mpr (Or.inr (by simp)), by simp [hxsw]⟩

theorem mem_services_enumGroupFold (l : List SimpleEnumDef) :
    ∀ (acc : List (String × List ServiceWithNodes)) (x : ServiceWithNodes),
      (∃ g ∈ enumGroupFold acc l, x ∈ g.2) ↔
        (∃ g ∈ acc, x ∈ g.2) ∨ ∃ d ∈ l, serviceWithNodesOf d = x := by
  induction l with
  | nil => intro acc x; simp [enumGroupFold]
  | cons d ds ih =>
    intro acc x
    have hstep : enumGroupFold acc (d :: ds) =
        enumGroupFold (pushOrCreate acc (enumGroupKey d) (serviceWithNodesOf d)) ds := rfl
    rw [hstep, ih, mem_values_pushOrCreate]
    constructor
    · rintro ((h | rfl) | ⟨d', hd', hx⟩)
      · exact Or.inl h
      · exact Or.inr ⟨d, by simp⟩
      · exact Or.inr ⟨d', by simp [hd'], hx⟩
    · rintro (h | ⟨d', hd', hx⟩)
      · exact Or.inl (Or.inl h)
      · rcases List.mem_cons.mp hd' with rfl | hd'
        · exact Or.inl (Or.inr hx.symm)
        · exact Or.inr ⟨d', hd', hx⟩

theorem pushOrCreate_same_key {A : Type} (acc : List (String × List A))
    (k : String) (sw : A)
    (hlen : acc.length ≤ 1) (hkeys : ∀ g ∈ acc, g.1 = k) :
    (pushOrCreate acc k sw).length ≤ 1 ∧ ∀ g ∈ pushOrCreate acc k sw, g.1 = k := by
  match acc with
  | [] => simp [pushOrCreate]
  | [g0] =>
    have h0 : g0.1 = k := hkeys g0 (by simp)
    simp [pushOrCreate, h0]
  | g0 :: g1 :: rest => simp at hlen

theorem enumGroupFold_length_le_one (l : List SimpleEnumDef) (k : String)
    (hk : ∀ d ∈ l, enumGroupKey d = k) :
    ∀ (acc : List (String × List ServiceWithNodes)),
      acc.length ≤ 1 → (∀ g ∈ acc, g.1 = k) →
      (enumGroupFold acc l).length ≤ 1 := by
  induction l with
  | nil => intro acc hlen _; exact hlen
  | cons d ds ih =>
    intro acc hlen hkeys
    have hkd : enumGroupKey d = k := hk d (by simp)
    have hstep : enumGroupFold acc (d :: ds) =
        enumGroupFold (pushOrCreate acc (enumGroupKey d) (serviceWithNodesOf d)) ds := rfl
    obtain ⟨h1, h2⟩ := pushOrCreate_same_key acc k (serviceWithNodesOf d) hlen hkeys
    rw [hstep, hkd]
    exact ih (fun d' hd' => hk d' (by simp [hd'])) _ h1 h2

theorem mem_simpleEnumDefsOf {d0 : SimpleEnumDef} {defs : List TypeDefinitionNode} :
    d0 ∈ simpleEnumDefsOf defs ↔
      ∃ d ∈ defs, ∃ s vs, d.serviceName = some s ∧ (s == "") = false ∧
        d.values = some vs ∧
        d0 = { serviceName := s, values := vs.map EnumValueDefinitionNode.name,
               nodes := vs } := by
  unfold simpleEnumDefsOf
  rw [List.mem_filterMap]
  constructor
  · rintro ⟨d, hd, hf⟩
    cases hs : d.serviceName with
    | none => rw [hs] at hf; simp at hf
    | some s =>
      cases hv : d.values with
      | none => rw [hs, hv] at hf; simp at hf
      | some vs =>
        rw [hs, hv] at hf
        by_cases hse : (s == "") = true
        · simp [hse] at hf
        · simp only [hse, if_false, Bool.false_eq_true, Option.some_inj] at hf
          exact ⟨d, hd, s, vs, hs, by simpa using hse, hv, hf.symm⟩
  · rintro ⟨d, hd, s, vs, h1, h2, h3, h4⟩
    refine ⟨d, hd, ?_⟩
    rw [h1, h3]
    simp [h2, h4]

/-! ### Properties of the definition grouper -/

theorem checkGroup_all_enum (name : String) (defs : List TypeDefinitionNode)
    (hall : defs.all isEnumDefinition = true) :
    checkGroup name defs =
      if 1 < (matchingEnumGroupsOf defs).length then
        [errorWithCode "ENUM_MISMATCH" []
          (enumMismatchMessage name (matchingEnumGroupsOf defs))]
      else [] := by
  unfold checkGroup
  rw [if_pos hall]

theorem checkGroup_mixed (name : String) (defs : List TypeDefinitionNode)
    (hnotall : defs.all isEnumDefinition = false)
    (hsome : defs.any isEnumDefinition = true) :
    checkGroup name defs =
      [errorWithCode "ENUM_MISMATCH_TYPE" []
        (enumMismatchTypeMessage name (servicesWithEnum defs)
          (servicesWithoutEnum defs))] := by
  unfold checkGroup
  rw [if_neg (by simp [hnotall]), if_pos hsome]

/-! ### Concrete document fragments used by witnesses and counterexamples -/

/-- Service `A` declares `Color` as an enum with values `RED, BLUE`. -/
def colorEnumA : TypeDefinitionNode :=
  { kind := TypeDefKind.enumTypeDefinition, name := "Color",
    serviceName := some "A",
    values := some [{ name := "RED" }, { name := "BLUE" }] }

/-- Service `B` declares `Color` as an enum with values `BLUE, RED`
(the same value set as `A`, in the opposite order). -/
def colorEnumB : TypeDefinitionNode :=
  { kind := TypeDefKind.enumTypeDefinition, name := "Color",
    serviceName := some "B",
    values := some [{ name := "BLUE" }, { name := "RED" }] }

/-- Service `C` declares `Color` as an enum with values `RED, GREEN`. -/
def colorEnumC : TypeDefinitionNode :=
  { kind := TypeDefKind.enumTypeDefinition, name := "Color",
    serviceName := some "C",
    values := some [{ name := "RED" }, { name := "GREEN" }] }

/-- Service `B` declares `Color` as an enum carrying no `values` array
(a malformed fragment). -/
def colorEnumNoValuesB : TypeDefinitionNode :=
  { kind := TypeDefKind.enumTypeDefinition, name := "Color",
    serviceName := some "B", values := none }

/-- Service `A` declares `Status` as an enum with values `ACTIVE, DONE`. -/
def statusEnumA : TypeDefinitionNode :=
  { kind := TypeDefKind.enumTypeDefinition, name := "Status",
    serviceName := some "A",
    values := some [{ name := "ACTIVE" }, { name := "DONE" }] }

/-- Service `B` declares `Status` as a non-enum type. -/
def statusObjectB : TypeDefinitionNode :=
  { kind := TypeDefKind.otherTypeDefinition, name := "Status",
    serviceName := some "B", values := none }

/-- A fragment declaring `Status` as an enum without any service identifier. -/
def statusEnumNoService : TypeDefinitionNode :=
  { kind := TypeDefKind.enumTypeDefinition, name := "Status",
    serviceName := none, values := some [{ name := "ACTIVE" }] }

/-! ### Claims -/

/-- Claim C3: the normalized signature is a function of the unordered value
set — permuting a fragment's `enumValues` does not change its signature —
and an all-enum group whose fragments all carry permutationally equal value
name lists produces no `ENUM_MISMATCH` fault. -/
theorem signature_depends_only_on_value_set
    (l1 l2 : List EnumValueDefinitionNode) (name : String)
    (defs : List TypeDefinitionNode)
    (hperm : l1.Perm l2)
    (hall : defs.all isEnumDefinition = true)
    (hsets : ∀ d1 ∈ defs, ∀ d2 ∈ defs, ∀ v1 v2,
      d1.values = some v1 → d2.values = some v2 →
      (v1.map EnumValueDefinitionNode.name).Perm
        (v2.map EnumValueDefinitionNode.name)) :
    enumSignature l1 = enumSignature l2 ∧ checkGroup name defs = [] := by
  refine ⟨enumSignature_eq_of_perm hperm, ?_⟩
  have hkey : ∀ a ∈ sortedEnumDefsOf defs, ∀ b ∈ sortedEnumDefsOf defs,
      enumGroupKey a = enumGroupKey b := by
    intro a ha b hb
    obtain ⟨a0, ha0, rfl⟩ := List.mem_map.mp ha
    obtain ⟨b0, hb0, rfl⟩ := List.mem_map.mp hb
    obtain ⟨da, hda, sa, va, ha1, ha2, ha3, ha4⟩ := mem_simpleEnumDefsOf.mp ha0
    obtain ⟨db, hdb, sb, vb, hb1, hb2, hb3, hb4⟩ := mem_simpleEnumDefsOf.mp hb0
    have hp := hsets da hda db hdb va vb ha3 hb3
    rw [ha4, hb4]
    show String.intercalate "," (jsSort (va.map EnumValueDefinitionNode.name)) =
      String.intercalate "," (jsSort (vb.map EnumValueDefinitionNode.name))
    exact congrArg (String.intercalate ",") (jsSort_eq_of_perm hp)
  have hlen : (matchingEnumGroupsOf defs).length ≤ 1 := by
    rw [matchingEnumGroupsOf]
    cases hs : sortedEnumDefsOf defs with
    | nil => simp [enumGroupFold]
    | cons e es =>
      have he : e ∈ sortedEnumDefsOf defs := by rw [hs]; simp
      refine enumGroupFold_length_le_one (e :: es) (enumGroupKey e) ?_ [] (by simp)
        (by simp)
      intro d' hd'
      have hd'' : d' ∈ sortedEnumDefsOf defs := by rw [hs]; exact hd'
      exact hkey d' hd'' e he
  rw [checkGroup_all_enum name defs hall, if_neg (by omega)]

/-- Witness for C3 at a concrete input: `[RED, BLUE]` and `[BLUE, RED]` have
equal signatures, and the group of services `A` and `B` (which declare the
same value set in opposite orders) produces no fault. -/
theorem signature_depends_only_on_value_set_witness :
    enumSignature [{ name := "RED" }, { name := "BLUE" }] =
      enumSignature [{ name := "BLUE" }, { name := "RED" }] ∧
    checkGroup "Color" [colorEnumA, colorEnumB] = [] :=
  signature_depends_only_on_value_set
    [{ name := "RED" }, { name := "BLUE" }] [{ name := "BLUE" }, { name := "RED" }]
    "Color" [colorEnumA, colorEnumB] (by decide) (by decide)
    (by
      intro d1 h1 d2 h2 v1 v2 hv1 hv2
      rcases (by simpa using h1 : d1 = colorEnumA ∨ d1 = colorEnumB) with rfl | rfl <;>
        rcases (by simpa using h2 : d2 = colorEnumA ∨ d2 = colorEnumB) with rfl | rfl <;>
        (obtain rfl := Option.some_inj.mp hv1.symm) <;>
        (obtain rfl := Option.some_inj.mp hv2.symm) <;>
        decide)

/-- Claim C4: for a mixed group (at least one enum fragment and at least one
non-enum fragment), exactly one fault is emitted, with code
`ENUM_MISMATCH_TYPE`, and its message names the type and lists the enum-side
service names (`servicesWithEnum`) and the non-enum-side service names
(`servicesWithoutEnum`), each list dropping fragments without a service
identifier. -/
theorem kind_conflict_single_fault (name : String)
    (defs : List TypeDefinitionNode)
    (hsome : defs.any isEnumDefinition = true)
    (hnotall : defs.all isEnumDefinition = false) :
    (checkGroup name defs).length = 1 ∧
    ∀ f ∈ checkGroup name defs,
      f.code = "ENUM_MISMATCH_TYPE" ∧
      f.message =
        logServiceAndType (servicesWithEnum defs).head? name
          ++ name ++ " is an enum in ["
          ++ String.intercalate ", " (servicesWithEnum defs)
          ++ "], but not in ["
          ++ String.intercalate ", " (servicesWithoutEnum defs) ++ "]" := by
  rw [checkGroup_mixed name defs hnotall hsome]
  refine ⟨rfl, ?_⟩
  intro f hf
  rw [List.mem_singleton.mp hf]
  exact ⟨rfl, rfl⟩

/-- Witness for C4 at a concrete input: `Status` is an enum in service `A` but
an object type in service `B`, producing exactly one fault. -/
theorem kind_conflict_single_fault_witness :
    (checkGroup "Status" [statusEnumA, statusObjectB]).length = 1 :=
  (kind_conflict_single_fault "Status" [statusEnumA, statusObjectB]
    (by decide) (by decide)).1

/-- Counterexample to C5 as stated: in a `Color` group where service `B`
contributes an enum definition (with a service name) that carries no
`enumValues` array, an `ENUM_MISMATCH` fault is emitted, `B` is among the
services contributing an enum definition for `Color`, yet the union of the
signature groups' service lists is only `A, C` — it misses `B`. -/
theorem partition_completeness_counterexample :
    (checkGroup "Color" [colorEnumA, colorEnumNoValuesB, colorEnumC]).map
        ValidationFault.code = ["ENUM_MISMATCH"] ∧
    "B" ∈ servicesWithEnum [colorEnumA, colorEnumNoValuesB, colorEnumC] ∧
    ((matchingEnumGroupsOf [colorEnumA, colorEnumNoValuesB, colorEnumC]).map
        (fun g => g.2.map ServiceWithNodes.serviceName)).flatten = ["A", "C"] := by
  decide

/-- Claim C5 (amended): for an all-enum group with an emitted fault, the union
of the signature groups' service lists equals the set of services contributing
an enum definition that carries both a nonempty `serviceName` and an
`enumValues` list (fragments missing either are excluded by the checker). -/
theorem partition_completeness_wellformed (name : String)
    (defs : List TypeDefinitionNode)
    (hall : defs.all isEnumDefinition = true)
    (hfault : checkGroup name defs ≠ []) :
    ∀ s, (∃ g ∈ matchingEnumGroupsOf defs, ∃ sw ∈ g.2, sw.serviceName = s) ↔
      ∃ d ∈ defs, ∃ vs, d.serviceName = some s ∧ (s == "") = false ∧
        d.values = some vs := by
  intro s
  constructor
  · rintro ⟨g, hg, sw, hsw, hname⟩
    have hmem : ∃ g ∈ matchingEnumGroupsOf defs, sw ∈ g.2 := ⟨g, hg, hsw⟩
    rw [matchingEnumGroupsOf, mem_services_enumGroupFold] at hmem
    simp only [List.not_mem_nil, false_and, exists_false, false_or] at hmem
    obtain ⟨d', hd', hsw'⟩ := hmem
    obtain ⟨d0, hd0, rfl⟩ := List.mem_map.mp hd'
    obtain ⟨d, hd, s0, vs, h1, h2, h3, h4⟩ := mem_simpleEnumDefsOf.mp hd0
    have hs0 : s0 = s := by
      have : (serviceWithNodesOf { d0 with values := jsSort d0.values }).serviceName
          = d0.serviceName := rfl
      rw [← hname, ← hsw', this, h4]
    subst hs0
    exact ⟨d, hd, vs, h1, h2, h3⟩
  · rintro ⟨d, hd, vs, h1, h2, h3⟩
    have hd0 : SimpleEnumDef.mk s (vs.map EnumValueDefinitionNode.name) vs ∈
        simpleEnumDefsOf defs :=
      mem_simpleEnumDefsOf.mpr ⟨d, hd, s, vs, h1, h2, h3, rfl⟩
    have hmem : ∃ g ∈ matchingEnumGroupsOf defs,
        serviceWithNodesOf
          (SimpleEnumDef.mk s (jsSort (vs.map EnumValueDefinitionNode.name)) vs) ∈ g.2 := by
      rw [matchingEnumGroupsOf, mem_services_enumGroupFold]
      refine Or.inr
        ⟨SimpleEnumDef.mk s (jsSort (vs.map EnumValueDefinitionNode.name)) vs, ?_, rfl⟩
      exact List.mem_map.mpr ⟨_, hd0, rfl⟩
    obtain ⟨g, hg, hsw⟩ := hmem
    exact ⟨g, hg, _, hsw, rfl⟩

/-- Witness for C5 (amended) at a concrete input: in the `A`/`C` mismatch for
`Color`, service `A` appears in a signature group. -/
theorem partition_completeness_wellformed_witness :
    ∃ g ∈ matchingEnumGroupsOf [colorEnumA, colorEnumC],
      ∃ sw ∈ g.2, sw.serviceName = "A" :=
  (partition_completeness_wellformed "Color" [colorEnumA, colorEnumC]
    (by decide) (by decide) "A").mpr
    ⟨colorEnumA, by decide, [{ name := "RED" }, { name := "BLUE" }], rfl, rfl, rfl⟩

/-- Claim C6 refuted on the code: the `ENUM_MISMATCH` message renders each
signature group's entries with JavaScript's default object stringification —
`[object Object]` — instead of the contributing service identifiers (the
`{serviceName, nodes}` records are joined directly); service `A` contributes
an enum definition, yet the character `A` does not occur in the message. -/
theorem mismatch_message_lists_objects_not_services :
    (checkGroup "Color" [colorEnumA, colorEnumC]).map ValidationFault.message =
      ["The `Color` enum does not have identical values in all services. " ++
        "Groups of services with identical values are: " ++
        "[[object Object]], [[object Object]]"] ∧
    (checkGroup "Color" [colorEnumA, colorEnumC]).map
        (fun f => decide ('A' ∈ f.message.data)) = [false] ∧
    servicesWithEnum [colorEnumA, colorEnumC] = ["A", "C"] := by
  decide

/-- Claim C7 refuted on the code: the `ENUM_MISMATCH` fault's
`impactedServices` payload is the empty record even though services `A` and
`C` appear across the fault's signature groups (the populating statement is
commented out in the source). -/
theorem mismatch_impacted_services_left_empty :
    (checkGroup "Color" [colorEnumA, colorEnumC]).map ValidationFault.code =
      ["ENUM_MISMATCH"] ∧
    (checkGroup "Color" [colorEnumA, colorEnumC]).map
        ValidationFault.impactedServices = [[]] ∧
    ((matchingEnumGroupsOf [colorEnumA, colorEnumC]).map
        (fun g => g.2.map ServiceWithNodes.serviceName)).flatten = ["A", "C"] := by
  decide

/-- Claim C8: a fragment missing its `serviceName` or its `enumValues` is
excluded from signature computation — removing it changes neither
`simpleEnumDefs` nor the signature groups — and a fragment without a service
identifier contributes to neither of the kind-mismatch service lists, so it
can appear in no reported list; the check itself stays total. -/
theorem malformed_fragments_excluded (d : TypeDefinitionNode)
    (l1 l2 : List TypeDefinitionNode)
    (hmal : d.serviceName = none ∨ d.values = none) :
    simpleEnumDefsOf (l1 ++ d :: l2) = simpleEnumDefsOf (l1 ++ l2) ∧
    matchingEnumGroupsOf (l1 ++ d :: l2) = matchingEnumGroupsOf (l1 ++ l2) ∧
    (d.serviceName = none →
      servicesWithEnum (l1 ++ d :: l2) = servicesWithEnum (l1 ++ l2) ∧
      servicesWithoutEnum (l1 ++ d :: l2) = servicesWithoutEnum (l1 ++ l2)) := by
  have hf : (match d.serviceName, d.values with
      | some s, some vs =>
        if s == "" then none
        else some { serviceName := s, values := vs.map (fun v => v.name),
                    nodes := vs }
      | _, _ => none) = (none : Option SimpleEnumDef) := by
    rcases hmal with h | h
    · rw [h]
    · rw [h]; cases d.serviceName <;> rfl
  have h1 : simpleEnumDefsOf (l1 ++ d :: l2) = simpleEnumDefsOf (l1 ++ l2) := by
    unfold simpleEnumDefsOf
    rw [List.filterMap_append, List.filterMap_append, List.filterMap_cons, hf]
  refine ⟨h1, ?_, ?_⟩
  · rw [matchingEnumGroupsOf, matchingEnumGroupsOf, sortedEnumDefsOf,
        sortedEnumDefsOf, h1]
  · intro hnone
    constructor
    · unfold servicesWithEnum
      rw [List.filter_append, List.filter_append, List.filter_cons]
      by_cases hd : isEnumDefinition d = true
      · rw [if_pos hd, List.filterMap_append, List.filterMap_append,
            List.filterMap_cons, hnone]
      · rw [if_neg hd]
    · unfold servicesWithoutEnum
      rw [List.filter_append, List.filter_append, List.filter_cons]
      by_cases hd : (!(isEnumDefinition d)) = true
      · rw [if_pos hd, List.filterMap_append, List.filterMap_append,
            List.filterMap_cons, hnone]
      · rw [if_neg hd]

/-- Witness for C8 at a concrete input: dropping the serviceless `Status`
enum fragment changes neither the signature groups of the `Color` document
nor the kind-mismatch service lists of the `Status` document. -/
theorem malformed_fragments_excluded_witness :
    matchingEnumGroupsOf ([colorEnumA] ++ colorEnumNoValuesB :: [colorEnumC]) =
      matchingEnumGroupsOf ([colorEnumA] ++ [colorEnumC]) ∧
    servicesWithEnum ([] ++ statusEnumNoService :: [statusObjectB]) =
      servicesWithEnum ([] ++ [statusObjectB]) :=
  ⟨(malformed_fragments_excluded colorEnumNoValuesB [colorEnumA] [colorEnumC]
      (Or.inr rfl)).2.1,
   ((malformed_fragments_excluded statusEnumNoService [] [statusObjectB]
      (Or.inl rfl)).2.2 rfl).1⟩

/-- Claim C9: the empty-list head access in the kind-mismatch message builder
is reachable — in a mixed group whose only enum fragment lacks a service
identifier, `servicesWithEnum` filters to empty, the mixed branch still runs,
and the emitted message is built from `servicesWithEnum[0]`, which is the JS
`undefined` (modelled as `none`). -/
theorem empty_service_list_head_reachable :
    ([statusEnumNoService, statusObjectB].all isEnumDefinition = false) ∧
    ([statusEnumNoService, statusObjectB].any isEnumDefinition = true) ∧
    servicesWithEnum [statusEnumNoService, statusObjectB] = [] ∧
    (servicesWithEnum [statusEnumNoService, statusObjectB]).head? = none ∧
    (checkGroup "Status" [statusEnumNoService, statusObjectB]).map
        ValidationFault.message =
      [logServiceAndType none "Status" ++
        "Status is an enum in [], but not in [B]"] := by
  decide

end Federation
